import Mathlib

/-!
# Verification of the strategy_lab backtesting engine core

A shallow embedding of the simulation-and-optimization engine of the
`strategy_lab` repository (`backend/app/services/backtester.py`,
`indicators.py`, `metrics.py`, `optimizer.py`) together with proofs about
the embedded definitions.

Modelling conventions:
* pandas Series become Lean lists; a possibly-NaN numeric cell is
  `Option ℚ` (`none` = NaN).  Where float infinities are observable
  (RSI's `rs = avg_gain / avg_loss`, the profit factor) the inductive
  type `FV` with `nan` / `pinf` / `ninf` / `num q` constructors is used.
* `Series.diff()` / `pct_change()` / `shift(1)` produce `none` at index 0,
  exactly like pandas produces NaN there.
* Crucially, the pandas boolean mask `Position_Change != 0` evaluates to
  `True` on the NaN at index 0 (IEEE: `NaN != 0` is `True`); the embedding
  keeps that behaviour (`pc ≠ some 0`).
* Python exceptions become `Except Exc`; the exception classes appearing
  in the indicator module are the constructors of `Exc`.
* Values computed with `sqrt` / real powers live in `ℝ`; everything the
  source computes with rational-valued arithmetic stays in `ℚ`.
-/

namespace StrategyLab

/-! ## Generic list helpers -/

/-- Indexing a `(List.range n).map f` list: the value is `f i` inside the
range and the default outside. -/
theorem getD_range_map {α : Type} (f : ℕ → α) (n i : ℕ) (d : α) :
    (((List.range n).map f).getD i d) = if i < n then f i else d := by
  rcases Nat.lt_or_ge i n with h | h
  · rw [List.getD_eq_getElem?_getD, List.getElem?_map, List.getElem?_range h]
    simp [h]
  · rw [List.getD_eq_getElem?_getD, List.getElem?_map,
      List.getElem?_eq_none (by simpa using h)]
    simp [Nat.not_lt.mpr h]

theorem getD_zip {α β : Type} :
    ∀ (l : List α) (l' : List β) (i : ℕ) (d : α) (d' : β),
      i < (l.zip l').length → (l.zip l').getD i (d, d') = (l.getD i d, l'.getD i d')
  | [], _, _, _, _, h => by simp at h
  | _ :: _, [], _, _, _, h => by simp at h
  | a :: l, b :: l', 0, d, d', _ => rfl
  | a :: l, b :: l', i + 1, d, d', h => by
    simpa using getD_zip l l' i d d' (by simpa using h)

/-! ## Position state machine (`VectorizedBacktester._generate_signals`)

The source loops over the bars carrying a mutable `position` (0 = flat,
1 = long):

    if entry == 1 and position == 0: position = 1
    elif exit == 1 and position == 1: position = 0
    signals.append(position)
-/

/-- One iteration of the `_generate_signals` loop body: the updated
`position` after seeing this bar's entry/exit signals. -/
def signalStep (pos : ℤ) (e x : Bool) : ℤ :=
  if e ∧ pos = 0 then 1
  else if x ∧ pos = 1 then 0
  else pos

/-- The `_generate_signals` loop over the remaining bars, carrying the
current `position` accumulator. -/
def signalsGo (pos : ℤ) : List (Bool × Bool) → List ℤ
  | [] => []
  | (e, x) :: rest =>
    signalStep pos e x :: signalsGo (signalStep pos e x) rest

/-- `_generate_signals`: the `Signal` (position) column produced from the
evaluated entry and exit boolean series, starting flat. -/
def generateSignals (entries exits : List Bool) : List ℤ :=
  signalsGo 0 (entries.zip exits)

theorem signalsGo_length (l : List (Bool × Bool)) :
    ∀ pos : ℤ, (signalsGo pos l).length = l.length := by
  induction l with
  | nil => intro pos; rfl
  | cons hd tl ih =>
    intro pos
    cases hd with
    | mk e x => simpa [signalsGo] using ih (signalStep pos e x)

theorem signalStep_mem (pos : ℤ) (e x : Bool) (h : pos = 0 ∨ pos = 1) :
    signalStep pos e x = 0 ∨ signalStep pos e x = 1 := by
  rcases h with h | h <;> subst h <;> cases e <;> cases x <;> simp [signalStep]

theorem signalsGo_mem (l : List (Bool × Bool)) :
    ∀ pos : ℤ, (pos = 0 ∨ pos = 1) →
      ∀ z ∈ signalsGo pos l, z = 0 ∨ z = 1 := by
  induction l with
  | nil => intro pos _ z hz; simp [signalsGo] at hz
  | cons hd tl ih =>
    intro pos hpos z hz
    cases hd with
    | mk e x =>
      simp only [signalsGo, List.mem_cons] at hz
      rcases hz with hz | hz
      · exact hz ▸ signalStep_mem pos e x hpos
      · exact ih (signalStep pos e x) (signalStep_mem pos e x hpos) z hz

theorem signalsGo_getD (l : List (Bool × Bool)) :
    ∀ (pos : ℤ) (i : ℕ), i < l.length →
      (signalsGo pos l).getD i 9 =
        signalStep (if i = 0 then pos else (signalsGo pos l).getD (i - 1) 9)
          (l.getD i (false, false)).1 (l.getD i (false, false)).2 := by
  induction l with
  | nil => intro pos i h; simp at h
  | cons hd tl ih =>
    intro pos i h
    cases hd with
    | mk e x =>
      match i with
      | 0 => rfl
      | 1 =>
        have h1 : 0 < tl.length := by simpa using h
        simpa [signalsGo] using ih (signalStep pos e x) 0 h1
      | (j + 2) =>
        have hj : j + 1 < tl.length := by
          simpa using Nat.lt_of_succ_lt_succ h
        have := ih (signalStep pos e x) (j + 1) hj
        simpa [signalsGo] using this

/-! ## Returns & cost model (`VectorizedBacktester._calculate_returns`)

    df['Market_Returns']  = df['Close'].pct_change()
    df['Position_Change'] = df['Signal'].diff()
    df['Strategy_Returns'] = df['Market_Returns'] * df['Signal'].shift(1)
    df['Trading_Costs'] = 0.0
    df.loc[df['Position_Change'] != 0, 'Trading_Costs'] = commission + slippage
    df['Net_Returns'] = df['Strategy_Returns'] - df['Trading_Costs']
-/

/-- `Series.pct_change()`: `Close[t]/Close[t-1] - 1`, NaN at `t = 0`. -/
def pctChange (l : List ℚ) : List (Option ℚ) :=
  (List.range l.length).map fun i =>
    if i = 0 then none else some (l.getD i 0 / l.getD (i - 1) 0 - 1)

/-- `Series.diff()` on the integer `Signal` column: NaN at `t = 0`. -/
def diffZ (l : List ℤ) : List (Option ℤ) :=
  (List.range l.length).map fun i =>
    if i = 0 then none else some (l.getD i 0 - l.getD (i - 1) 0)

/-- `Series.shift(1)` on the `Signal` column: NaN at `t = 0`. -/
def shift1 (l : List ℤ) : List (Option ℤ) :=
  (List.range l.length).map fun i =>
    if i = 0 then none else some (l.getD (i - 1) 0)

/-- `Strategy_Returns = Market_Returns * Signal.shift(1)`; a product with a
NaN operand is NaN. -/
def strategyReturns (closes : List ℚ) (signal : List ℤ) : List (Option ℚ) :=
  (List.range closes.length).map fun i =>
    match (pctChange closes).getD i none, (shift1 signal).getD i none with
    | some m, some p => some (m * (p : ℚ))
    | _, _ => none

/-- `Trading_Costs`: initialized to `0.0`, then set to
`commission_rate + slippage_rate` on the mask `Position_Change != 0`.
The mask is `True` on the NaN at index 0 (IEEE `NaN != 0`), so the only
rows left at zero are those whose change is literally `0`. -/
def tradingCosts (signal : List ℤ) (c s : ℚ) : List ℚ :=
  (diffZ signal).map fun pc => if pc = some 0 then 0 else c + s

/-- `Net_Returns = Strategy_Returns - Trading_Costs` (NaN minus a number
is NaN). -/
def netReturns (closes : List ℚ) (signal : List ℤ) (c s : ℚ) :
    List (Option ℚ) :=
  (List.range closes.length).map fun i =>
    ((strategyReturns closes signal).getD i none).map
      (fun r => r - (tradingCosts signal c s).getD i 0)

/-! ## Claims C1 and C2 -/

/-- C2: for every pair of entry/exit boolean series, the position series
starts flat, enters long (1) on a true entry signal while flat, returns to
flat (0) on a true exit signal while long, otherwise keeps its state; on a
bar with both signals true, entry wins while flat and exit wins while
long; every output value is 0 or 1, and the output covers every bar. -/
theorem position_state_machine_spec (entries exits : List Bool) :
    (generateSignals entries exits).length = min entries.length exits.length
    ∧ ∀ i, i < (generateSignals entries exits).length →
        ((generateSignals entries exits).getD i 9 = 0
          ∨ (generateSignals entries exits).getD i 9 = 1)
        ∧ (generateSignals entries exits).getD i 9 =
            (let prev :=
              if i = 0 then 0 else (generateSignals entries exits).getD (i - 1) 9
             if entries.getD i false ∧ prev = 0 then 1
             else if exits.getD i false ∧ prev = 1 then 0
             else prev) := by
  refine ⟨?_, ?_⟩
  · rw [generateSignals, signalsGo_length, List.length_zip]
  · intro i hi
    have hlen : (generateSignals entries exits).length = (entries.zip exits).length := by
      rw [generateSignals, signalsGo_length]
    have hiz : i < (entries.zip exits).length := hlen ▸ hi
    constructor
    · have hmem : (generateSignals entries exits).getD i 9 ∈ generateSignals entries exits := by
        rw [List.getD_eq_getElem?_getD, List.getElem?_eq_getElem hi]
        exact List.getElem_mem hi
      exact signalsGo_mem (entries.zip exits) 0 (Or.inl rfl) _ hmem
    · have hchar := signalsGo_getD (entries.zip exits) 0 i hiz
      have hz := getD_zip entries exits i false false hiz
      rw [generateSignals, hchar, hz]
      rfl

/-- C2 witness: concrete instance where both signals are true while long
at bar 1, and exit takes priority. -/
theorem position_state_machine_spec_witness :
    1 < (generateSignals [true, true] [false, true]).length
    ∧ (((generateSignals [true, true] [false, true]).getD 1 9 = 0
          ∨ (generateSignals [true, true] [false, true]).getD 1 9 = 1)
        ∧ (generateSignals [true, true] [false, true]).getD 1 9 =
            (let prev :=
              if 1 = 0 then 0
              else (generateSignals [true, true] [false, true]).getD (1 - 1) 9
             if ([true, true].getD 1 false : Bool) ∧ prev = 0 then 1
             else if ([false, true].getD 1 false : Bool) ∧ prev = 1 then 0
             else prev)) :=
  ⟨by decide, (position_state_machine_spec [true, true] [false, true]).2 1 (by decide)⟩

/-- C1 counterexample: at bar 0 `Position_Change` is NaN, and the pandas
mask `Position_Change != 0` is `True` on NaN, so the code charges
`commission_rate + slippage_rate = 3/2000` at the very first bar — the
claim's "no trading cost is charged at the first bar" is false. -/
theorem trading_cost_first_bar_cex :
    (tradingCosts (generateSignals [false, false] [false, false])
        (1/1000) (1/2000)).getD 0 0 = 3/2000
    ∧ ¬ (tradingCosts (generateSignals [false, false] [false, false])
        (1/1000) (1/2000)).getD 0 0 = 0 := by
  have h : (tradingCosts (generateSignals [false, false] [false, false])
      (1/1000) (1/2000)).getD 0 0 = 1/1000 + 1/2000 := rfl
  rw [h]
  norm_num

/-- C1 (amended): `Net_Return[t] = Strategy_Return[t] - Trading_Cost[t]`;
for `t ≥ 1`, `Strategy_Return[t] = Market_Return[t] * Position[t-1]`
(the previous bar's position); and
`Trading_Cost[t] = commission_rate + slippage_rate` exactly when `t = 0`
(where the undefined `Position_Change` compares as nonzero) or the
position changed at bar `t`, else 0. -/
theorem returns_and_costs_spec (closes : List ℚ) (signal : List ℤ)
    (c s : ℚ) (t : ℕ)
    (hlen : signal.length = closes.length) (ht : t < closes.length) :
    ((netReturns closes signal c s).getD t none =
      ((strategyReturns closes signal).getD t none).map
        (fun r => r - (tradingCosts signal c s).getD t 0))
    ∧ (1 ≤ t →
        (strategyReturns closes signal).getD t none =
          some ((closes.getD t 0 / closes.getD (t - 1) 0 - 1)
            * (signal.getD (t - 1) 0 : ℚ)))
    ∧ ((tradingCosts signal c s).getD t 0 =
        if t = 0 ∨ signal.getD t 0 ≠ signal.getD (t - 1) 0 then c + s
        else 0) := by
  have htS : t < signal.length := by rw [hlen]; exact ht
  refine ⟨?_, ?_, ?_⟩
  · rw [netReturns, getD_range_map]
    simp [ht]
  · intro h1
    have ht0 : t ≠ 0 := by omega
    rw [strategyReturns, getD_range_map]
    simp only [ht, if_pos]
    rw [pctChange, getD_range_map, shift1, getD_range_map]
    simp [ht, htS, ht0]
  · rw [tradingCosts, diffZ, List.map_map, getD_range_map]
    simp only [htS, if_pos, Function.comp]
    by_cases ht0 : t = 0
    · simp [ht0]
    · simp only [ht0, if_neg, false_or]
      by_cases heq : signal.getD t 0 = signal.getD (t - 1) 0
      · simp [heq, sub_eq_zero]
      · simp [heq, sub_eq_zero]

/-- C1 witness: concrete evaluation of the amended returns/cost model at
bar 1 of a two-bar series entering at bar 1. -/
theorem returns_and_costs_spec_witness :
    (([0, 1] : List ℤ).length = ([100, 101] : List ℚ).length
      ∧ 1 < ([100, 101] : List ℚ).length)
    ∧ (((netReturns [100, 101] [0, 1] (1/1000) (1/2000)).getD 1 none =
        ((strategyReturns [100, 101] [0, 1]).getD 1 none).map
          (fun r => r - (tradingCosts [0, 1] (1/1000) (1/2000)).getD 1 0))
      ∧ (1 ≤ 1 →
          (strategyReturns [100, 101] [0, 1]).getD 1 none =
            some ((([100, 101] : List ℚ).getD 1 0 / ([100, 101] : List ℚ).getD 0 0 - 1)
              * (([0, 1] : List ℤ).getD 0 0 : ℚ)))
      ∧ ((tradingCosts [0, 1] (1/1000) (1/2000)).getD 1 0 =
          if (1 : ℕ) = 0 ∨ ([0, 1] : List ℤ).getD 1 0 ≠ ([0, 1] : List ℤ).getD 0 0
          then 1/1000 + 1/2000 else 0)) :=
  ⟨⟨rfl, by decide⟩,
    returns_and_costs_spec [100, 101] [0, 1] (1/1000) (1/2000) 1 rfl (by decide)⟩

/-! ## Trade extractor (`VectorizedBacktester._extract_trades`)

The source walks the bars carrying `in_position` / `entry_idx` /
`entry_price`; it opens a pending trade where `Position_Change == 1` while
not in position, and closes it (appending a trade dict) where
`Position_Change == -1` while in position.  The comparison `NaN == 1`
is false, so the NaN at bar 0 never opens a trade.
-/

/-- One trade record of the ledger.  `entry_date` / `exit_date` of the
source are the series index at the entry/exit bar; the embedding keeps
the bar indices themselves. -/
structure Trade where
  entryIdx : ℕ
  exitIdx : ℕ
  entryPrice : ℚ
  exitPrice : ℚ
  ret : ℚ
  profitLoss : ℚ
  duration : ℕ
  side : String
deriving DecidableEq, Repr

/-- The trade dict appended on a close:
`trade_return = (exit - entry)/entry - (commission + slippage) * 2`,
`profit_loss = trade_return * initial_capital`,
`duration = exit_idx - entry_idx`. -/
def mkTrade (eIdx xIdx : ℕ) (ePrice xPrice c s cap : ℚ) : Trade :=
  let r := (xPrice - ePrice) / ePrice - (c + s) * 2
  ⟨eIdx, xIdx, ePrice, xPrice, r, r * cap, xIdx - eIdx, "LONG"⟩

/-- The `_extract_trades` loop: `i` is the current bar index, the list
argument the remaining `Position_Change` cells, and the `Option`
accumulator the pending open trade (`in_position`, `entry_idx`,
`entry_price`). -/
def extractTradesGo (closes : List ℚ) (c s cap : ℚ) :
    ℕ → List (Option ℤ) → Option (ℕ × ℚ) → List Trade
  | _, [], _ => []
  | i, pc :: rest, none =>
    if pc = some 1 then
      extractTradesGo closes c s cap (i + 1) rest (some (i, closes.getD i 0))
    else
      extractTradesGo closes c s cap (i + 1) rest none
  | i, pc :: rest, some (eIdx, ePrice) =>
    if pc = some (-1) then
      mkTrade eIdx i ePrice (closes.getD i 0) c s cap ::
        extractTradesGo closes c s cap (i + 1) rest none
    else
      extractTradesGo closes c s cap (i + 1) rest (some (eIdx, ePrice))

/-- `_extract_trades` over the whole series: scan the
`Position_Change = Signal.diff()` column from bar 0, not in position. -/
def extractTrades (closes : List ℚ) (signal : List ℤ) (c s cap : ℚ) :
    List Trade :=
  extractTradesGo closes c s cap 0 (diffZ signal) none

theorem diffZ_length (signal : List ℤ) : (diffZ signal).length = signal.length := by
  simp [diffZ]

theorem diffZ_getD (signal : List ℤ) (i : ℕ) (h : i < signal.length) :
    (diffZ signal).getD i none =
      if i = 0 then none else some (signal.getD i 0 - signal.getD (i - 1) 0) := by
  rw [diffZ, getD_range_map]
  simp [h]

/-- Invariant of the `_extract_trades` loop: `L` is the whole
`Position_Change` column, the loop has consumed the first `i` cells, and
any pending entry was opened at an earlier bar whose change cell was
`1`, at that bar's close price.  Every emitted trade then carries the
documented return/PnL/duration formulas and closes at a `-1` change cell
following a `1` change cell. -/
theorem extractTradesGo_spec (closes : List ℚ) (c s cap : ℚ)
    (L : List (Option ℤ)) :
    ∀ (pcs : List (Option ℤ)) (i : ℕ), pcs = L.drop i →
      ∀ pending : Option (ℕ × ℚ),
        (∀ e p, pending = some (e, p) →
          e < i ∧ p = closes.getD e 0 ∧ L.getD e none = some 1) →
        ∀ t ∈ extractTradesGo closes c s cap i pcs pending,
          t.ret = (t.exitPrice - t.entryPrice) / t.entryPrice - (c + s) * 2
          ∧ t.profitLoss = t.ret * cap
          ∧ t.duration = t.exitIdx - t.entryIdx
          ∧ t.entryPrice = closes.getD t.entryIdx 0
          ∧ t.exitPrice = closes.getD t.exitIdx 0
          ∧ t.entryIdx < t.exitIdx
          ∧ t.exitIdx < L.length
          ∧ L.getD t.exitIdx none = some (-1)
          ∧ L.getD t.entryIdx none = some 1 := by
  intro pcs
  induction pcs with
  | nil =>
    intro i _ pending _ t ht
    simp [extractTradesGo] at ht
  | cons pc rest ih =>
    intro i hdrop pending hpend t ht
    have hiL : i < L.length := by
      by_contra hge
      have hnil : L.drop i = [] := List.drop_eq_nil_of_le (Nat.le_of_not_lt hge)
      rw [hnil] at hdrop
      exact (List.cons_ne_nil pc rest) hdrop
    have hLi : L.getD i none = pc := by
      have h0 : (L.drop i).getD 0 none = pc := by rw [← hdrop]; rfl
      rwa [List.getD_eq_getElem?_getD, List.getElem?_drop, Nat.add_zero,
        ← List.getD_eq_getElem?_getD] at h0
    have hrest : rest = L.drop (i + 1) := by
      have hh : (pc :: rest).drop 1 = (L.drop i).drop 1 := by rw [hdrop]
      simpa [List.drop_drop, Nat.add_comm] using hh
    cases pending with
    | none =>
      by_cases hone : pc = some 1
      · rw [extractTradesGo, if_pos hone] at ht
        refine ih (i + 1) hrest (some (i, closes.getD i 0)) ?_ t ht
        intro e p hep
        injection hep with hep
        injection hep with he hp
        subst he
        subst hp
        exact ⟨by omega, rfl, by rw [hLi, hone]⟩
      · rw [extractTradesGo, if_neg hone] at ht
        exact ih (i + 1) hrest none (by intro e p h; cases h) t ht
    | some pr =>
      obtain ⟨eIdx, ePrice⟩ := pr
      obtain ⟨hei, hep, heL⟩ := hpend eIdx ePrice rfl
      by_cases hm1 : pc = some (-1)
      · rw [extractTradesGo, if_pos hm1] at ht
        rcases List.mem_cons.mp ht with hhd | htl
        · subst hhd
          refine ⟨rfl, rfl, rfl, ?_, rfl, hei, hiL, ?_, heL⟩
          · exact hep
          · show L.getD i none = some (-1)
            rw [hLi, hm1]
        · exact ih (i + 1) hrest none (by intro e p h; cases h) t htl
      · rw [extractTradesGo, if_neg hm1] at ht
        refine ih (i + 1) hrest (some (eIdx, ePrice)) ?_ t ht
        intro e p hep2
        injection hep2 with hep2
        injection hep2 with he hp
        subst he
        subst hp
        exact ⟨by omega, hep, heL⟩

/-- C3: every trade in the ledger has
`return = (exit_price - entry_price)/entry_price - 2*(commission+slippage)`,
`profit_loss = return * initial_capital`, and
`duration = exit_bar_index - entry_bar_index`; its prices are the close
prices of its entry/exit bars, and it was opened by a 0→1 and closed by a
later 1→0 position change inside the series — so a position still open at
the end of the series (one with no closing 1→0 change) appears in no
trade. -/
theorem extract_trades_spec (closes : List ℚ) (signal : List ℤ)
    (c s cap : ℚ) (hvals : ∀ z ∈ signal, z = 0 ∨ z = 1) :
    ∀ t ∈ extractTrades closes signal c s cap,
      t.ret = (t.exitPrice - t.entryPrice) / t.entryPrice - 2 * (c + s)
      ∧ t.profitLoss = t.ret * cap
      ∧ t.duration = t.exitIdx - t.entryIdx
      ∧ t.entryPrice = closes.getD t.entryIdx 0
      ∧ t.exitPrice = closes.getD t.exitIdx 0
      ∧ t.entryIdx < t.exitIdx
      ∧ t.exitIdx < signal.length
      ∧ 1 ≤ t.entryIdx
      ∧ signal.getD (t.entryIdx - 1) 0 = 0 ∧ signal.getD t.entryIdx 0 = 1
      ∧ signal.getD (t.exitIdx - 1) 0 = 1 ∧ signal.getD t.exitIdx 0 = 0 := by
  intro t ht
  have hspec := extractTradesGo_spec closes c s cap (diffZ signal)
    (diffZ signal) 0 rfl none (by intro e p h; cases h) t ht
  obtain ⟨hret, hpl, hdur, hepr, hxpr, hlt, hxlen, hxdiff, hediff⟩ := hspec
  have hxlenS : t.exitIdx < signal.length := by rwa [diffZ_length] at hxlen
  have helenS : t.entryIdx < signal.length := Nat.lt_trans hlt hxlenS
  have hxd := diffZ_getD signal t.exitIdx hxlenS
  have hed := diffZ_getD signal t.entryIdx helenS
  have he1 : 1 ≤ t.entryIdx := by
    by_contra h
    have h0 : t.entryIdx = 0 := by omega
    rw [hed, if_pos h0] at hediff
    cases hediff
  have hx1 : 1 ≤ t.exitIdx := by omega
  rw [hed, if_neg (by omega)] at hediff
  rw [hxd, if_neg (by omega)] at hxdiff
  have hediff2 : signal.getD t.entryIdx 0 - signal.getD (t.entryIdx - 1) 0 = 1 :=
    Option.some.inj hediff
  have hxdiff2 : signal.getD t.exitIdx 0 - signal.getD (t.exitIdx - 1) 0 = -1 :=
    Option.some.inj hxdiff
  have hmem : ∀ i, i < signal.length → signal.getD i 0 = 0 ∨ signal.getD i 0 = 1 := by
    intro i hi
    refine hvals _ ?_
    rw [List.getD_eq_getElem?_getD, List.getElem?_eq_getElem hi]
    exact List.getElem_mem hi
  have hv1 := hmem t.entryIdx helenS
  have hv2 := hmem (t.entryIdx - 1) (by omega)
  have hv3 := hmem t.exitIdx hxlenS
  have hv4 := hmem (t.exitIdx - 1) (by omega)
  refine ⟨by rw [hret]; ring, hpl, hdur, hepr, hxpr, hlt, hxlenS, he1, ?_, ?_, ?_, ?_⟩
  · rcases hv1 with h | h <;> rcases hv2 with h2 | h2 <;> omega
  · rcases hv1 with h | h <;> rcases hv2 with h2 | h2 <;> omega
  · rcases hv3 with h | h <;> rcases hv4 with h2 | h2 <;> omega
  · rcases hv3 with h | h <;> rcases hv4 with h2 | h2 <;> omega

/-- C3 witness: a three-bar series entering at bar 1 and exiting at
bar 2 yields exactly one ledger trade satisfying the trade formulas. -/
theorem extract_trades_spec_witness :
    (∀ z ∈ generateSignals [false, true, false] [false, false, true],
        z = 0 ∨ z = 1)
    ∧ (extractTrades [10, 11, 12]
        (generateSignals [false, true, false] [false, false, true])
        (1/1000) (1/2000) 100000).length = 1
    ∧ ∀ t ∈ extractTrades [10, 11, 12]
          (generateSignals [false, true, false] [false, false, true])
          (1/1000) (1/2000) 100000,
        t.ret = (t.exitPrice - t.entryPrice) / t.entryPrice - 2 * (1/1000 + 1/2000)
        ∧ t.profitLoss = t.ret * 100000
        ∧ t.duration = t.exitIdx - t.entryIdx
        ∧ t.entryPrice = ([10, 11, 12] : List ℚ).getD t.entryIdx 0
        ∧ t.exitPrice = ([10, 11, 12] : List ℚ).getD t.exitIdx 0
        ∧ t.entryIdx < t.exitIdx
        ∧ t.exitIdx <
            (generateSignals [false, true, false] [false, false, true]).length
        ∧ 1 ≤ t.entryIdx
        ∧ (generateSignals [false, true, false] [false, false, true]).getD
            (t.entryIdx - 1) 0 = 0
        ∧ (generateSignals [false, true, false] [false, false, true]).getD
            t.entryIdx 0 = 1
        ∧ (generateSignals [false, true, false] [false, false, true]).getD
            (t.exitIdx - 1) 0 = 1
        ∧ (generateSignals [false, true, false] [false, false, true]).getD
            t.exitIdx 0 = 0 :=
  ⟨by decide, rfl,
    extract_trades_spec [10, 11, 12]
      (generateSignals [false, true, false] [false, false, true])
      (1/1000) (1/2000) 100000 (by decide)⟩

/-- C10: a long position opened by an entry signal at the very first bar
never reaches the trade ledger — every ledger entry is recognized at a
`Position_Change == 1` cell, and the change cell of bar 0 is NaN; yet the
position does earn strategy returns (bar 1's strategy return is the full
market return).  Even when that bar-0 position is later closed by a 1→0
change, no trade is produced for it. -/
theorem first_bar_position_no_trade (closes : List ℚ) (signal : List ℤ)
    (c s cap : ℚ) (hlen : signal.length = closes.length)
    (h0 : signal.getD 0 0 = 1) (h2 : 2 ≤ closes.length) :
    (∀ t ∈ extractTrades closes signal c s cap, t.entryIdx ≠ 0)
    ∧ (strategyReturns closes signal).getD 1 none =
        some (closes.getD 1 0 / closes.getD 0 0 - 1) := by
  constructor
  · intro t ht
    have hspec := extractTradesGo_spec closes c s cap (diffZ signal)
      (diffZ signal) 0 rfl none (by intro e p h; cases h) t ht
    obtain ⟨-, -, -, -, -, hlt, hxlen, -, hediff⟩ := hspec
    intro he0
    have helenS : t.entryIdx < signal.length := by
      rw [diffZ_length] at hxlen
      omega
    rw [diffZ_getD signal t.entryIdx helenS, if_pos he0] at hediff
    cases hediff
  · have h1c : 1 < closes.length := by omega
    have h1s : 1 < signal.length := by omega
    rw [strategyReturns, getD_range_map]
    simp only [h1c, if_pos]
    rw [pctChange, getD_range_map, shift1, getD_range_map]
    simp only [h1c, h1s, if_pos, if_neg (by omega : ¬ (1 : ℕ) = 0)]
    have h0e : signal[0]?.getD 0 = 1 := by
      rwa [List.getD_eq_getElem?_getD] at h0
    simp [h0e]

/-- C10 witness: entry true at bar 0 and a later exit: the position earns
bar 1's market return yet the ledger is empty. -/
theorem first_bar_position_no_trade_witness :
    ((generateSignals [true, false, false] [false, false, true]).length =
        ([10, 11, 12] : List ℚ).length
      ∧ (generateSignals [true, false, false] [false, false, true]).getD 0 0 = 1
      ∧ 2 ≤ ([10, 11, 12] : List ℚ).length)
    ∧ extractTrades [10, 11, 12]
        (generateSignals [true, false, false] [false, false, true])
        (1/1000) (1/2000) 100000 = []
    ∧ ((∀ t ∈ extractTrades [10, 11, 12]
            (generateSignals [true, false, false] [false, false, true])
            (1/1000) (1/2000) 100000, t.entryIdx ≠ 0)
      ∧ (strategyReturns [10, 11, 12]
            (generateSignals [true, false, false] [false, false, true])).getD
          1 none =
        some (([10, 11, 12] : List ℚ).getD 1 0 / ([10, 11, 12] : List ℚ).getD 0 0 - 1)) :=
  ⟨⟨rfl, by decide, by decide⟩, rfl,
    first_bar_position_no_trade [10, 11, 12]
      (generateSignals [true, false, false] [false, false, true])
      (1/1000) (1/2000) 100000 rfl (by decide) (by decide)⟩

/-! ## Technical indicators (`TechnicalIndicators` in `indicators.py`)

Every indicator body sits in a `try` block ending in

    except Exception as e:
        raise IndicatorCalculationError("Error calculating NAME: " + str(e))

`InsufficientDataError` and `IndicatorCalculationError` are sibling
subclasses of `StrategyLabException`, so the `except Exception` handler
catches the `InsufficientDataError` raised inside the `try` and re-raises
it wrapped as an `IndicatorCalculationError`.
-/

/-- The exception classes reachable from the indicator module
(`app/utils/exceptions.py`). -/
inductive Exc where
  | insufficientData (msg : String)
  | indicatorCalculation (msg : String)
deriving DecidableEq, Repr

/-- `str(e)`: the message carried by the exception. -/
def Exc.message : Exc → String
  | .insufficientData m => m
  | .indicatorCalculation m => m

/-- The `except Exception as e: raise IndicatorCalculationError(...)`
handler wrapped around every indicator body. -/
def wrapIndicator (name : String) : Except Exc α → Except Exc α
  | .ok v => .ok v
  | .error e =>
    .error (.indicatorCalculation ("Error calculating " ++ name ++ ": " ++ e.message))

/-- The observation window a `rolling(window=period)` aggregation sees at
index `i`: the up-to-`period` points ending at `i`. -/
def windowAt (data : List ℚ) (period i : ℕ) : List ℚ :=
  (data.take (i + 1)).drop (i + 1 - period)

/-- `Series.rolling(window=period, min_periods=period).mean()`: trailing
window of the last `period` points, NaN until the window is full. -/
def rollingMeanFull (data : List ℚ) (period : ℕ) : List (Option ℚ) :=
  (List.range data.length).map fun i =>
    if period ≤ (windowAt data period i).length then
      some ((windowAt data period i).sum / ((windowAt data period i).length : ℚ))
    else none

/-- `TechnicalIndicators.sma`, including the length guard and the
wrapping `except` handler. -/
def sma (data : List ℚ) (period : ℕ) : Except Exc (List (Option ℚ)) :=
  wrapIndicator "SMA"
    (if data.length < period then
      .error (.insufficientData
        ("Insufficient data for SMA calculation. Need at least "
          ++ toString period ++ " points, got " ++ toString data.length))
    else .ok (rollingMeanFull data period))

/-- The recurrence of `Series.ewm(..., adjust=False).mean()` after the
seed: `y[t] = (1 - alpha) * y[t-1] + alpha * x[t]`. -/
def ewmGo (alpha prev : ℚ) : List ℚ → List ℚ
  | [] => []
  | x :: xs =>
    ((1 - alpha) * prev + alpha * x) :: ewmGo alpha ((1 - alpha) * prev + alpha * x) xs

/-- `Series.ewm(..., adjust=False).mean()` on a NaN-free series, before
the `min_periods` mask: seeded with the first observation. -/
def ewmAdjFalse (alpha : ℚ) : List ℚ → List ℚ
  | [] => []
  | x :: xs => x :: ewmGo alpha x xs

/-- The `min_periods=mp` output mask on a NaN-free input: the first
`mp - 1` outputs are NaN. -/
def maskMinPeriods (mp : ℕ) (l : List ℚ) : List (Option ℚ) :=
  (List.range l.length).map fun i => if mp ≤ i + 1 then some (l.getD i 0) else none

/-- `TechnicalIndicators.ema`:
`data.ewm(span=period, adjust=False, min_periods=period).mean()` with
smoothing factor `2/(period+1)`, plus guard and handler. -/
def ema (data : List ℚ) (period : ℕ) : Except Exc (List (Option ℚ)) :=
  wrapIndicator "EMA"
    (if data.length < period then
      .error (.insufficientData
        ("Insufficient data for EMA calculation. Need at least "
          ++ toString period ++ " points, got " ++ toString data.length))
    else .ok (maskMinPeriods period (ewmAdjFalse (2 / ((period : ℚ) + 1)) data)))

/-- A float cell as observable in the RSI pipeline: a finite rational, an
infinity produced by dividing a nonzero number by zero, or NaN. -/
inductive FV where
  | nan
  | pinf
  | ninf
  | num (q : ℚ)
deriving DecidableEq, Repr

/-- IEEE division of two possibly-NaN finite cells:
`x/0` is `±inf` for `x ≠ 0`, `0/0` is NaN, NaN propagates. -/
def fdiv : Option ℚ → Option ℚ → FV
  | some x, some y =>
    if y = 0 then (if x = 0 then .nan else if 0 < x then .pinf else .ninf)
    else .num (x / y)
  | _, _ => .nan

/-- `100 - 100/(1 + rs)` in float semantics: an infinite `rs` gives
exactly 100 (`100/±inf = ∓0`); a finite `rs = -1` gives `-inf`
(unreachable here because `rs ≥ 0`). -/
def rsiFromRS : FV → FV
  | .nan => .nan
  | .pinf => .num 100
  | .ninf => .num 100
  | .num q => if 1 + q = 0 then .ninf else .num (100 - 100 / (1 + q))

/-- `Series.fillna(v)`: replaces the NaN cells only. -/
def fillna (v : ℚ) : FV → FV
  | .nan => .num v
  | x => x

/-- `Series.diff()` on a price series: NaN at index 0. -/
def diffQ (l : List ℚ) : List (Option ℚ) :=
  (List.range l.length).map fun i =>
    if i = 0 then none else some (l.getD i 0 - l.getD (i - 1) 0)

/-- `delta.where(delta > 0, 0.0)`: the gains column. The NaN at index 0
fails the comparison, so it becomes `0.0` (a real observation). -/
def gains (delta : List (Option ℚ)) : List ℚ :=
  delta.map fun d =>
    match d with
    | some v => if 0 < v then v else 0
    | none => 0

/-- `-delta.where(delta < 0, 0.0)`: the losses column (nonnegative). -/
def losses (delta : List (Option ℚ)) : List ℚ :=
  delta.map fun d =>
    match d with
    | some v => if v < 0 then -v else 0
    | none => 0

/-- `TechnicalIndicators.rsi`: Wilder smoothing of gains/losses with
`alpha = 1/period` and `min_periods=period`, `rs = avg_gain/avg_loss`,
`rsi = 100 - 100/(1+rs)`, then `fillna(100)` over the whole series. -/
def rsi (data : List ℚ) (period : ℕ) : Except Exc (List FV) :=
  wrapIndicator "RSI"
    (if data.length < period + 1 then
      .error (.insufficientData
        ("Insufficient data for RSI calculation. Need at least "
          ++ toString (period + 1) ++ " points, got " ++ toString data.length))
    else
      let delta := diffQ data
      let ag := maskMinPeriods period (ewmAdjFalse (1 / (period : ℚ)) (gains delta))
      let al := maskMinPeriods period (ewmAdjFalse (1 / (period : ℚ)) (losses delta))
      .ok ((List.range data.length).map fun i =>
        fillna 100 (rsiFromRS (fdiv (ag.getD i none) (al.getD i none)))))

/-- `Series.rolling(window=period, min_periods=period).std()` (sample
standard deviation, `ddof=1`) — modelled as the variance it is the square
root of: NaN until the window is full, and NaN for a one-point window
(`0/0` denominator with `ddof=1`). -/
def rollingVar (data : List ℚ) (period : ℕ) : List (Option ℚ) :=
  (List.range data.length).map fun i =>
    if period ≤ (windowAt data period i).length then
      if (windowAt data period i).length ≤ 1 then none
      else
        some (((windowAt data period i).map fun x =>
            (x - (windowAt data period i).sum / ((windowAt data period i).length : ℚ))^2).sum
          / (((windowAt data period i).length : ℚ) - 1))
    else none

/-- `upper_band = middle_band + (std_dev * num_std)`: defined where both
the rolling mean and the rolling standard deviation are. -/
noncomputable def bbUpper (data : List ℚ) (period : ℕ) (numStd : ℝ) :
    List (Option ℝ) :=
  (List.range data.length).map fun i =>
    match (rollingMeanFull data period).getD i none,
        (rollingVar data period).getD i none with
    | some m, some v => some ((m : ℝ) + Real.sqrt (v : ℝ) * numStd)
    | _, _ => none

/-- `lower_band = middle_band - (std_dev * num_std)`. -/
noncomputable def bbLower (data : List ℚ) (period : ℕ) (numStd : ℝ) :
    List (Option ℝ) :=
  (List.range data.length).map fun i =>
    match (rollingMeanFull data period).getD i none,
        (rollingVar data period).getD i none with
    | some m, some v => some ((m : ℝ) - Real.sqrt (v : ℝ) * numStd)
    | _, _ => none

/-- `TechnicalIndicators.bollinger_bands`: `(upper, middle, lower)` with
the length guard and the wrapping handler. -/
noncomputable def bollingerBands (data : List ℚ) (period : ℕ) (numStd : ℝ) :
    Except Exc (List (Option ℝ) × List (Option ℚ) × List (Option ℝ)) :=
  wrapIndicator "Bollinger Bands"
    (if data.length < period then
      .error (.insufficientData
        ("Insufficient data for Bollinger Bands calculation. Need at least "
          ++ toString period ++ " points, got " ++ toString data.length))
    else .ok (bbUpper data period numStd, rollingMeanFull data period,
      bbLower data period numStd))

/-! ## Claims C4 and C7 -/

theorem windowAt_length (data : List ℚ) (period i : ℕ) (hi : i < data.length) :
    (windowAt data period i).length = (i + 1) - (i + 1 - period) := by
  rw [windowAt, List.length_drop, List.length_take]
  congr 1
  omega

/-- C7: for every series of length at least `period` (and `period ≥ 1`),
the SMA succeeds and its output has exactly `period - 1` leading
undefined (NaN) cells and a defined value at every later bar. -/
theorem sma_leading_undefined (data : List ℚ) (period : ℕ)
    (h1 : 1 ≤ period) (h2 : period ≤ data.length) :
    sma data period = .ok (rollingMeanFull data period)
    ∧ (rollingMeanFull data period).length = data.length
    ∧ ∀ i, i < data.length →
        ((rollingMeanFull data period).getD i none = none ↔ i < period - 1) := by
  refine ⟨?_, by simp [rollingMeanFull], ?_⟩
  · rw [sma, if_neg (by omega)]
    rfl
  · intro i hi
    rw [rollingMeanFull, getD_range_map, if_pos hi]
    have hwl := windowAt_length data period i hi
    by_cases hp : period ≤ i + 1
    · rw [if_pos (by omega)]
      simp only [reduceCtorEq, false_iff]
      omega
    · rw [if_neg (by omega)]
      simp only [true_iff]
      omega

/-- C7 witness: SMA over a three-point series with window 2 has exactly
one leading NaN. -/
theorem sma_leading_undefined_witness :
    (1 ≤ 2 ∧ 2 ≤ ([1, 2, 3] : List ℚ).length)
    ∧ (sma [1, 2, 3] 2 = .ok (rollingMeanFull [1, 2, 3] 2)
      ∧ (rollingMeanFull [1, 2, 3] 2).length = ([1, 2, 3] : List ℚ).length
      ∧ ∀ i, i < ([1, 2, 3] : List ℚ).length →
          ((rollingMeanFull [1, 2, 3] 2).getD i none = none ↔ i < 2 - 1)) :=
  ⟨⟨by decide, by decide⟩, sma_leading_undefined [1, 2, 3] 2 (by decide) (by decide)⟩

/-- C4: the short-series failure observed by a caller.  On the exact
input of the repository's own `test_insufficient_data_error`
(five points, `period=20`) the SMA does raise the insufficient-data
message naming the minimum length — but the `except Exception` handler
re-raises it as an `IndicatorCalculationError`, not as the
`InsufficientDataError` the claim (and the docstring and the test)
promise. -/
theorem sma_short_series_wrapped_error :
    sma [1, 2, 3, 4, 5] 20 =
      .error (.indicatorCalculation
        ("Error calculating SMA: Insufficient data for SMA calculation. "
          ++ "Need at least 20 points, got 5"))
    ∧ sma [1, 2, 3, 4, 5] 20 ≠
      .error (.insufficientData
        ("Insufficient data for SMA calculation. "
          ++ "Need at least 20 points, got 5")) := by
  constructor
  · rfl
  · intro hcontra
    have h2 : Exc.indicatorCalculation
        ("Error calculating SMA: Insufficient data for SMA calculation. "
          ++ "Need at least 20 points, got 5") =
      .insufficientData
        ("Insufficient data for SMA calculation. "
          ++ "Need at least 20 points, got 5") := by
      apply Except.error.inj
      rw [← hcontra]
      rfl
    cases h2

/-! ## Claim C5 -/

theorem ewmGo_length (alpha : ℚ) :
    ∀ (l : List ℚ) (prev : ℚ), (ewmGo alpha prev l).length = l.length := by
  intro l
  induction l with
  | nil => intro prev; rfl
  | cons x xs ih => intro prev; simpa [ewmGo] using ih _

theorem ewmAdjFalse_length (alpha : ℚ) (l : List ℚ) :
    (ewmAdjFalse alpha l).length = l.length := by
  cases l with
  | nil => rfl
  | cons x xs => simpa [ewmAdjFalse] using ewmGo_length alpha xs x

theorem maskMinPeriods_getD (mp : ℕ) (l : List ℚ) (i : ℕ) (hi : i < l.length) :
    (maskMinPeriods mp l).getD i none =
      if mp ≤ i + 1 then some (l.getD i 0) else none := by
  rw [maskMinPeriods, getD_range_map, if_pos hi]

theorem fillna_ne_nan (v : ℚ) (x : FV) : fillna v x ≠ .nan := by
  cases x <;> simp [fillna]

/-- C5 (amended): for every series long enough to compute the
indicators, the EMA output has exactly `period - 1` leading undefined
(NaN) cells and is defined afterwards; the RSI output, by contrast, has
NO undefined cells at all — the final `fillna(100)` turns the
`period - 1` warm-up NaNs of the Wilder averages into the value 100. -/
theorem ema_rsi_warmup_spec (data : List ℚ) (period : ℕ)
    (h1 : 1 ≤ period) (h2 : period + 1 ≤ data.length) :
    (∃ out, ema data period = .ok out ∧ out.length = data.length
      ∧ ∀ i, i < data.length → (out.getD i none = none ↔ i < period - 1))
    ∧ (∃ out, rsi data period = .ok out ∧ out.length = data.length
      ∧ ∀ i, i < data.length →
          out.getD i .nan ≠ .nan
          ∧ (i < period - 1 → out.getD i .nan = .num 100)) := by
  constructor
  · refine ⟨maskMinPeriods period (ewmAdjFalse (2 / ((period : ℚ) + 1)) data),
      ?_, ?_, ?_⟩
    · rw [ema, if_neg (by omega)]
      rfl
    · simp [maskMinPeriods, ewmAdjFalse_length]
    · intro i hi
      rw [maskMinPeriods_getD period _ i (by rw [ewmAdjFalse_length]; exact hi)]
      by_cases hp : period ≤ i + 1
      · rw [if_pos hp]
        simp only [reduceCtorEq, false_iff]
        omega
      · rw [if_neg hp]
        simp only [true_iff]
        omega
  · refine ⟨(List.range data.length).map (fun i =>
      fillna 100 (rsiFromRS (fdiv
        ((maskMinPeriods period
          (ewmAdjFalse (1 / (period : ℚ)) (gains (diffQ data)))).getD i none)
        ((maskMinPeriods period
          (ewmAdjFalse (1 / (period : ℚ)) (losses (diffQ data)))).getD i none)))),
      ?_, ?_, ?_⟩
    · rw [rsi, if_neg (by omega)]
      rfl
    · simp
    · intro i hi
      rw [getD_range_map, if_pos hi]
      refine ⟨fillna_ne_nan _ _, ?_⟩
      intro hip
      have hglen : (ewmAdjFalse (1 / (period : ℚ)) (gains (diffQ data))).length
          = data.length := by
        rw [ewmAdjFalse_length]
        simp [gains, diffQ]
      rw [maskMinPeriods_getD period _ i (by rw [hglen]; exact hi),
        if_neg (by omega)]
      rfl

/-- C5 witness: a four-point series with RSI/EMA period 2. -/
theorem ema_rsi_warmup_spec_witness :
    (1 ≤ 2 ∧ 2 + 1 ≤ ([1, 2, 3, 4] : List ℚ).length)
    ∧ ((∃ out, ema [1, 2, 3, 4] 2 = .ok out
        ∧ out.length = ([1, 2, 3, 4] : List ℚ).length
        ∧ ∀ i, i < ([1, 2, 3, 4] : List ℚ).length →
            (out.getD i none = none ↔ i < 2 - 1))
      ∧ (∃ out, rsi [1, 2, 3, 4] 2 = .ok out
        ∧ out.length = ([1, 2, 3, 4] : List ℚ).length
        ∧ ∀ i, i < ([1, 2, 3, 4] : List ℚ).length →
            out.getD i .nan ≠ .nan
            ∧ (i < 2 - 1 → out.getD i .nan = .num 100))) :=
  ⟨⟨by decide, by decide⟩, ema_rsi_warmup_spec [1, 2, 3, 4] 2 (by decide) (by decide)⟩

/-- C5 counterexample: `RSI([1,2,3], 2)` — the claim predicts the first 2
entries undefined, but every entry of the output is the defined value
100 (the warm-up NaNs were filled by `fillna(100)`). -/
theorem rsi_no_undefined_leading_cex :
    rsi [1, 2, 3] 2 = .ok [.num 100, .num 100, .num 100]
    ∧ FV.num 100 ≠ FV.nan := by
  refine ⟨?_, by decide⟩
  have hd : diffQ [1, 2, 3] = [none, some 1, some 1] := by
    simp only [diffQ, List.length_cons, List.length_nil]
    norm_num [List.range_succ]
  have hcast : ((2 : ℕ) : ℚ) = 2 := by norm_num
  have hg : gains [none, some 1, some 1] = [0, 1, 1] := by
    norm_num [gains]
  have hl : losses [none, some 1, some 1] = [0, 0, 0] := by
    norm_num [losses]
  have hag : ewmAdjFalse (1 / (2 : ℚ)) [0, 1, 1] = [0, 1/2, 3/4] := by
    norm_num [ewmAdjFalse, ewmGo]
  have hal : ewmAdjFalse (1 / (2 : ℚ)) [0, 0, 0] = [0, 0, 0] := by
    norm_num [ewmAdjFalse, ewmGo]
  have hmag : maskMinPeriods 2 [0, 1/2, 3/4] = [none, some (1/2), some (3/4)] := rfl
  have hmal : maskMinPeriods 2 [0, 0, 0] = [none, some 0, some 0] := rfl
  rw [rsi, if_neg (by decide)]
  show Except.ok _ = _
  rw [hd, hcast, hg, hl, hag, hal, hmag, hmal]
  have h0 : fdiv none none = .nan := rfl
  have h1 : fdiv (some (1/2 : ℚ)) (some 0) = .pinf := by
    rw [fdiv, if_pos rfl, if_neg (by norm_num), if_pos (by norm_num)]
  have h2 : fdiv (some (3/4 : ℚ)) (some 0) = .pinf := by
    rw [fdiv, if_pos rfl, if_neg (by norm_num), if_pos (by norm_num)]
  have hr : List.range ([1, 2, 3] : List ℚ).length = [0, 1, 2] := by decide
  rw [hr]
  simp only [List.map_cons, List.map_nil, List.getD_cons_zero, List.getD_cons_succ]
  rw [h0, h1, h2]
  rfl

/-! ## Claim C6 -/

theorem rollingVar_nonneg (data : List ℚ) (period : ℕ) (i : ℕ) (v : ℚ)
    (hv : (rollingVar data period).getD i none = some v) : 0 ≤ v := by
  by_cases hi : i < data.length
  · rw [rollingVar, getD_range_map, if_pos hi] at hv
    by_cases hp : period ≤ (windowAt data period i).length
    · rw [if_pos hp] at hv
      by_cases h1 : (windowAt data period i).length ≤ 1
      · rw [if_pos h1] at hv
        cases hv
      · rw [if_neg h1] at hv
        have hv2 := Option.some.inj hv
        rw [← hv2]
        apply div_nonneg
        · apply List.sum_nonneg
          intro x hx
          obtain ⟨y, -, hy⟩ := List.mem_map.mp hx
          rw [← hy]
          positivity
        · have hge : (2 : ℚ) ≤ ((windowAt data period i).length : ℚ) := by
            exact_mod_cast by omega
          linarith
    · rw [if_neg hp] at hv
      cases hv
  · rw [rollingVar, getD_range_map, if_neg hi] at hv
    cases hv

/-- C6 (amended): for every `num_std ≥ 0`, wherever the three Bollinger
bands are defined, `Lower ≤ Middle ≤ Upper`
(`Upper = Middle + num_std*StdDev`, `Lower = Middle - num_std*StdDev`).
For a negative `num_std` the order flips, see the counterexample. -/
theorem bollinger_band_order (data : List ℚ) (period : ℕ) (numStd : ℝ)
    (hstd : 0 ≤ numStd) (i : ℕ) (u lo : ℝ) (m : ℚ)
    (hu : (bbUpper data period numStd).getD i none = some u)
    (hm : (rollingMeanFull data period).getD i none = some m)
    (hl : (bbLower data period numStd).getD i none = some lo) :
    lo ≤ (m : ℝ) ∧ (m : ℝ) ≤ u := by
  by_cases hi : i < data.length
  · rw [bbUpper, getD_range_map, if_pos hi] at hu
    rw [bbLower, getD_range_map, if_pos hi] at hl
    rcases hv : (rollingVar data period).getD i none with - | v
    · rw [hm, hv] at hu
      cases hu
    · rw [hm, hv] at hu hl
      have hu2 : (m : ℝ) + Real.sqrt (v : ℝ) * numStd = u := Option.some.inj hu
      have hl2 : (m : ℝ) - Real.sqrt (v : ℝ) * numStd = lo := Option.some.inj hl
      have hsq : 0 ≤ Real.sqrt (v : ℝ) * numStd :=
        mul_nonneg (Real.sqrt_nonneg _) hstd
      constructor
      · rw [← hl2]
        linarith
      · rw [← hu2]
        linarith
  · rw [bbUpper, getD_range_map, if_neg hi] at hu
    cases hu

theorem rollingMean_pair_eval :
    (rollingMeanFull [1, 1] 2).getD 1 none = some 1 := by
  rw [rollingMeanFull, getD_range_map, if_pos (by decide)]
  norm_num [windowAt]

theorem rollingVar_pair_eval :
    (rollingVar [1, 1] 2).getD 1 none = some 0 := by
  rw [rollingVar, getD_range_map, if_pos (by decide)]
  rw [if_pos (by decide), if_neg (by decide)]
  norm_num [windowAt]

/-- C6 witness: a flat two-point window, `num_std = 2`: all three bands
are defined and equal at index 1. -/
theorem bollinger_band_order_witness :
    ((0 : ℝ) ≤ 2
      ∧ (bbUpper [1, 1] 2 2).getD 1 none = some ((1 : ℝ) + Real.sqrt 0 * 2)
      ∧ (rollingMeanFull [1, 1] 2).getD 1 none = some 1
      ∧ (bbLower [1, 1] 2 2).getD 1 none = some ((1 : ℝ) - Real.sqrt 0 * 2))
    ∧ ((1 : ℝ) - Real.sqrt 0 * 2 ≤ ((1 : ℚ) : ℝ)
      ∧ ((1 : ℚ) : ℝ) ≤ (1 : ℝ) + Real.sqrt 0 * 2) := by
  have hu : (bbUpper [1, 1] 2 2).getD 1 none = some ((1 : ℝ) + Real.sqrt 0 * 2) := by
    rw [bbUpper, getD_range_map, if_pos (by decide),
      rollingMean_pair_eval, rollingVar_pair_eval]
    norm_num
  have hl : (bbLower [1, 1] 2 2).getD 1 none = some ((1 : ℝ) - Real.sqrt 0 * 2) := by
    rw [bbLower, getD_range_map, if_pos (by decide),
      rollingMean_pair_eval, rollingVar_pair_eval]
    norm_num
  exact ⟨⟨by norm_num, hu, rollingMean_pair_eval, hl⟩,
    bollinger_band_order [1, 1] 2 2 (by norm_num) 1 _ _ 1 hu rollingMean_pair_eval hl⟩

/-- C6 counterexample: with `num_std = -1` the bands are defined at
index 1 of the series `[0, 2]` with `Middle = 1` but
`Upper = 1 - sqrt 2 < Middle` — the claim fails for negative `num_std`,
which the code accepts without restriction. -/
theorem bollinger_negative_numstd_cex :
    (rollingMeanFull [0, 2] 2).getD 1 none = some 1
    ∧ (bbUpper [0, 2] 2 (-1)).getD 1 none = some ((1 : ℝ) + Real.sqrt 2 * (-1))
    ∧ (1 : ℝ) + Real.sqrt 2 * (-1) < ((1 : ℚ) : ℝ) := by
  have hm : (rollingMeanFull [0, 2] 2).getD 1 none = some 1 := by
    rw [rollingMeanFull, getD_range_map, if_pos (by decide)]
    norm_num [windowAt]
  have hv : (rollingVar [0, 2] 2).getD 1 none = some 2 := by
    rw [rollingVar, getD_range_map, if_pos (by decide)]
    rw [if_pos (by decide), if_neg (by decide)]
    norm_num [windowAt]
  refine ⟨hm, ?_, ?_⟩
  · rw [bbUpper, getD_range_map, if_pos (by decide), hm, hv]
    norm_num
  · have hpos : 0 < Real.sqrt 2 := Real.sqrt_pos.mpr (by norm_num)
    push_cast
    linarith

/-! ## Performance metrics (`PerformanceMetrics` in `metrics.py`)

Spelling note: the source's `sharpe_ratio` / `sortino_ratio` /
`calmar_ratio` methods are named `sharpe` / `sortino` / `calmar` here;
values needing square roots or real powers live in `ℝ`.
pandas `Series.mean()` and `Series.std()` (sample standard deviation,
`ddof=1`) are `meanQ` and `Real.sqrt ∘ varSample`; the callers only
reach them behind `len(returns) <= 1` guards, so the `0/0` corner of a
one-point sample never feeds a computed metric.
-/

/-- `Series.mean()`. -/
def meanQ (l : List ℚ) : ℚ := l.sum / (l.length : ℚ)

/-- The sample variance behind `Series.std()` (`ddof=1`):
`Σ (x - mean)² / (n - 1)`. -/
def varSample (l : List ℚ) : ℚ :=
  (l.map fun x => (x - meanQ l)^2).sum / ((l.length : ℚ) - 1)

/-- `Series.std()` = square root of the sample variance. -/
noncomputable def stdSample (l : List ℚ) : ℝ := Real.sqrt ((varSample l : ℚ) : ℝ)

/-- `PerformanceMetrics.total_return`: `(1 + returns).prod() - 1`,
0 for an empty series. -/
def totalReturn (returns : List ℚ) : ℚ :=
  if returns.length = 0 then 0 else (returns.map fun r => 1 + r).prod - 1

/-- `PerformanceMetrics.annualized_return`:
`total_factor ** (1/years) - 1` with `years = n / periods_per_year`;
0 for an empty series, nonpositive years, or a nonpositive factor. -/
noncomputable def annualizedReturn (returns : List ℚ) (ppy : ℕ) : ℝ :=
  if returns.length = 0 then 0
  else if ((returns.length : ℚ) / (ppy : ℚ)) ≤ 0
      ∨ (returns.map fun r => 1 + r).prod ≤ 0 then 0
  else
    Real.rpow (((returns.map fun r => 1 + r).prod : ℚ) : ℝ)
      (1 / ((((returns.length : ℚ) / (ppy : ℚ)) : ℚ) : ℝ)) - 1

/-- `PerformanceMetrics.volatility`: `returns.std() * sqrt(ppy)`,
0 when fewer than two returns. -/
noncomputable def volatility (returns : List ℚ) (ppy : ℕ) : ℝ :=
  if returns.length ≤ 1 then 0
  else stdSample returns * Real.sqrt (ppy : ℝ)

/-- `PerformanceMetrics.sharpe_ratio`: annualized mean excess return over
its standard deviation; 0 when fewer than two returns or the deviation is
zero (`std == 0` iff the sample variance is zero, the variance being
nonnegative for two or more points). -/
noncomputable def sharpe (rf : ℚ) (ppy : ℕ) (returns : List ℚ) : ℝ :=
  if returns.length ≤ 1 then 0
  else if varSample (returns.map fun r => r - rf / (ppy : ℚ)) = 0 then 0
  else
    Real.sqrt (ppy : ℝ) * ((meanQ (returns.map fun r => r - rf / (ppy : ℚ)) : ℚ) : ℝ)
      / stdSample (returns.map fun r => r - rf / (ppy : ℚ))

/-- `PerformanceMetrics.sortino_ratio`: same numerator, deviation taken
over the negative excess returns only; 0 when there are none or their
deviation is zero.  (For exactly one downside return the source divides
by a NaN deviation and stores NaN; the rational embedding's `varSample`
is 0 there, folding that corner into the 0 branch.) -/
noncomputable def sortino (rf : ℚ) (ppy : ℕ) (returns : List ℚ) : ℝ :=
  if returns.length ≤ 1 then 0
  else if ((returns.map fun r => r - rf / (ppy : ℚ)).filter
        fun r => decide (r < 0)).length = 0
      ∨ varSample ((returns.map fun r => r - rf / (ppy : ℚ)).filter
        fun r => decide (r < 0)) = 0 then 0
  else
    Real.sqrt (ppy : ℝ) * ((meanQ (returns.map fun r => r - rf / (ppy : ℚ)) : ℚ) : ℝ)
      / stdSample ((returns.map fun r => r - rf / (ppy : ℚ)).filter
        fun r => decide (r < 0))

/-- `(1 + returns).cumprod()` with running accumulator. -/
def cumProdFrom (acc : ℚ) : List ℚ → List ℚ
  | [] => []
  | x :: xs => (acc * x) :: cumProdFrom (acc * x) xs

/-- The cumulative-return curve `(1 + returns).cumprod()`. -/
def cumulativeCurve (returns : List ℚ) : List ℚ :=
  cumProdFrom 1 (returns.map fun r => 1 + r)

def runningMaxFrom (acc : ℚ) : List ℚ → List ℚ
  | [] => []
  | x :: xs => (max acc x) :: runningMaxFrom (max acc x) xs

/-- `cumulative.expanding().max()`. -/
def runningMax (l : List ℚ) : List ℚ :=
  match l with
  | [] => []
  | x :: xs => x :: runningMaxFrom x xs

/-- `(cumulative - running_max) / running_max`. -/
def drawdowns (returns : List ℚ) : List ℚ :=
  ((cumulativeCurve returns).zip (runningMax (cumulativeCurve returns))).map
    fun p => (p.1 - p.2) / p.2

/-- `PerformanceMetrics.maximum_drawdown`: `drawdown.min()`,
0 for an empty series. -/
def maximumDrawdown (returns : List ℚ) : ℚ :=
  if returns.length = 0 then 0
  else
    match drawdowns returns with
    | [] => 0
    | d :: ds => ds.foldl min d

/-- `PerformanceMetrics.max_drawdown_duration`: the longest run of
consecutive bars with negative drawdown. -/
def maxDrawdownDuration (returns : List ℚ) : ℕ :=
  if returns.length = 0 then 0
  else
    ((drawdowns returns).foldl
      (fun (p : ℕ × ℕ) d =>
        if d < 0 then (max p.1 (p.2 + 1), p.2 + 1) else (p.1, 0))
      (0, 0)).1

/-- `PerformanceMetrics.calmar_ratio`:
`annualized_return / |maximum_drawdown|`, 0 when the drawdown is 0. -/
noncomputable def calmar (returns : List ℚ) (ppy : ℕ) : ℝ :=
  if returns.length = 0 then 0
  else if |maximumDrawdown returns| = 0 then 0
  else annualizedReturn returns ppy / ((|maximumDrawdown returns| : ℚ) : ℝ)

/-- `PerformanceMetrics.win_rate`: percentage of trades with positive
return, 0 with no trades. -/
def winRate (tr : List ℚ) : ℚ :=
  if tr.length = 0 then 0
  else ((tr.filter fun r => decide (0 < r)).length : ℚ) / (tr.length : ℚ) * 100

/-- `PerformanceMetrics.profit_factor`: gross profit over absolute gross
loss; `inf` with profits and no losses, 0 with no trades or neither. -/
def profitFactor (tr : List ℚ) : FV :=
  if tr.length = 0 then .num 0
  else if |(tr.filter fun r => decide (r < 0)).sum| = 0 then
    (if 0 < (tr.filter fun r => decide (0 < r)).sum then .pinf else .num 0)
  else
    .num ((tr.filter fun r => decide (0 < r)).sum
      / |(tr.filter fun r => decide (r < 0)).sum|)

/-- `average_win_loss`: mean winning trade, 0 when none. -/
def avgWin (tr : List ℚ) : ℚ :=
  if (tr.filter fun r => decide (0 < r)).length = 0 then 0
  else meanQ (tr.filter fun r => decide (0 < r))

/-- `average_win_loss`: mean losing trade, 0 when none. -/
def avgLoss (tr : List ℚ) : ℚ :=
  if (tr.filter fun r => decide (r < 0)).length = 0 then 0
  else meanQ (tr.filter fun r => decide (r < 0))

/-- `average_win_loss`: `abs(avg_win / avg_loss)`, 0 when `avg_loss` is
zero. -/
def winLossQuotient (tr : List ℚ) : ℚ :=
  if avgLoss tr = 0 then 0 else |avgWin tr / avgLoss tr|

/-- The trade-derived block of `calculate_all_metrics`: real statistics
when a nonempty trade-return series is provided
(`trade_returns is not None and len(trade_returns) > 0`), the zero
defaults otherwise. -/
def tradeMetricsOf : Option (List ℚ) → (ℕ × ℚ × FV × ℚ × ℚ × ℚ × ℕ × ℕ)
  | some (t :: ts) =>
    ((t :: ts).length, winRate (t :: ts), profitFactor (t :: ts),
      avgWin (t :: ts), avgLoss (t :: ts), winLossQuotient (t :: ts),
      ((t :: ts).filter fun r => decide (0 < r)).length,
      ((t :: ts).filter fun r => decide (r < 0)).length)
  | _ => (0, 0, .num 0, 0, 0, 0, 0, 0)

/-- `rolling_sharpe_30`: only produced with at least 30 returns; the
trailing-30 window at the series end,
`mean / (std + 1e-12) * sqrt(ppy)`. -/
noncomputable def rollingSharpe30 (returns : List ℚ) (ppy : ℕ) : Option ℝ :=
  if 30 ≤ returns.length then
    some (((meanQ (returns.drop (returns.length - 30)) : ℚ) : ℝ)
      / (stdSample (returns.drop (returns.length - 30)) + 1 / 10^12)
      * Real.sqrt (ppy : ℝ))
  else none

/-- The fixed-shape result of `calculate_all_metrics`. -/
structure MetricsBundle where
  total_return : ℚ
  annualized_return : ℝ
  vol : ℝ
  sharpe_r : ℝ
  sortino_r : ℝ
  maximum_drawdown : ℚ
  max_drawdown_duration : ℕ
  calmar_r : ℝ
  initial_capital : ℚ
  final_capital : ℚ
  profit_loss : ℚ
  num_trades : ℕ
  win_rate : ℚ
  profit_factor : FV
  avg_win : ℚ
  avg_loss : ℚ
  win_loss_quotient : ℚ
  num_winning_trades : ℕ
  num_losing_trades : ℕ
  rolling_sharpe_30 : Option ℝ

/-- `PerformanceMetrics.calculate_all_metrics`. -/
noncomputable def calculateAllMetrics (rf : ℚ) (ppy : ℕ) (returns : List ℚ)
    (tradeReturns : Option (List ℚ)) (cap : ℚ) : MetricsBundle :=
  { total_return := totalReturn returns
    annualized_return := annualizedReturn returns ppy
    vol := volatility returns ppy
    sharpe_r := sharpe rf ppy returns
    sortino_r := sortino rf ppy returns
    maximum_drawdown := maximumDrawdown returns
    max_drawdown_duration := maxDrawdownDuration returns
    calmar_r := calmar returns ppy
    initial_capital := cap
    final_capital := cap * (1 + totalReturn returns)
    profit_loss := cap * (1 + totalReturn returns) - cap
    num_trades := (tradeMetricsOf tradeReturns).1
    win_rate := (tradeMetricsOf tradeReturns).2.1
    profit_factor := (tradeMetricsOf tradeReturns).2.2.1
    avg_win := (tradeMetricsOf tradeReturns).2.2.2.1
    avg_loss := (tradeMetricsOf tradeReturns).2.2.2.2.1
    win_loss_quotient := (tradeMetricsOf tradeReturns).2.2.2.2.2.1
    num_winning_trades := (tradeMetricsOf tradeReturns).2.2.2.2.2.2.1
    num_losing_trades := (tradeMetricsOf tradeReturns).2.2.2.2.2.2.2
    rolling_sharpe_30 := rollingSharpe30 returns ppy }

/-- C9: with an absent or empty trade-return series the metrics bundle is
still produced (the embedding is a total function, matching the source
path that raises nothing), all trade-derived statistics default to zero,
and the return-based metrics are still computed from the net returns. -/
theorem zero_trades_metrics (rf : ℚ) (ppy : ℕ) (returns : List ℚ)
    (cap : ℚ) (tr : Option (List ℚ)) (htr : tr = none ∨ tr = some []) :
    (calculateAllMetrics rf ppy returns tr cap).num_trades = 0
    ∧ (calculateAllMetrics rf ppy returns tr cap).win_rate = 0
    ∧ (calculateAllMetrics rf ppy returns tr cap).profit_factor = .num 0
    ∧ (calculateAllMetrics rf ppy returns tr cap).avg_win = 0
    ∧ (calculateAllMetrics rf ppy returns tr cap).avg_loss = 0
    ∧ (calculateAllMetrics rf ppy returns tr cap).win_loss_quotient = 0
    ∧ (calculateAllMetrics rf ppy returns tr cap).num_winning_trades = 0
    ∧ (calculateAllMetrics rf ppy returns tr cap).num_losing_trades = 0
    ∧ (calculateAllMetrics rf ppy returns tr cap).total_return = totalReturn returns
    ∧ (calculateAllMetrics rf ppy returns tr cap).maximum_drawdown = maximumDrawdown returns
    ∧ (calculateAllMetrics rf ppy returns tr cap).sharpe_r = sharpe rf ppy returns
    ∧ (calculateAllMetrics rf ppy returns tr cap).final_capital
        = cap * (1 + totalReturn returns) := by
  rcases htr with rfl | rfl <;>
    exact ⟨rfl, rfl, rfl, rfl, rfl, rfl, rfl, rfl, rfl, rfl, rfl, rfl⟩

/-- C9 witness: a two-return series, no trades. -/
theorem zero_trades_metrics_witness :
    ((none : Option (List ℚ)) = none ∨ (none : Option (List ℚ)) = some [])
    ∧ ((calculateAllMetrics (1/50) 252 [1/10, -1/20] none 100000).num_trades = 0
      ∧ (calculateAllMetrics (1/50) 252 [1/10, -1/20] none 100000).win_rate = 0
      ∧ (calculateAllMetrics (1/50) 252 [1/10, -1/20] none 100000).profit_factor = .num 0
      ∧ (calculateAllMetrics (1/50) 252 [1/10, -1/20] none 100000).avg_win = 0
      ∧ (calculateAllMetrics (1/50) 252 [1/10, -1/20] none 100000).avg_loss = 0
      ∧ (calculateAllMetrics (1/50) 252 [1/10, -1/20] none 100000).win_loss_quotient = 0
      ∧ (calculateAllMetrics (1/50) 252 [1/10, -1/20] none 100000).num_winning_trades = 0
      ∧ (calculateAllMetrics (1/50) 252 [1/10, -1/20] none 100000).num_losing_trades = 0
      ∧ (calculateAllMetrics (1/50) 252 [1/10, -1/20] none 100000).total_return
          = totalReturn [1/10, -1/20]
      ∧ (calculateAllMetrics (1/50) 252 [1/10, -1/20] none 100000).maximum_drawdown
          = maximumDrawdown [1/10, -1/20]
      ∧ (calculateAllMetrics (1/50) 252 [1/10, -1/20] none 100000).sharpe_r
          = sharpe (1/50) 252 [1/10, -1/20]
      ∧ (calculateAllMetrics (1/50) 252 [1/10, -1/20] none 100000).final_capital
          = 100000 * (1 + totalReturn [1/10, -1/20])) :=
  ⟨Or.inl rfl,
    zero_trades_metrics (1/50) 252 [1/10, -1/20] 100000 none (Or.inl rfl)⟩

/-! ## Optimizer (`StrategyOptimizer` in `optimizer.py`)

`_generate_parameter_combinations` builds per-parameter value lists with
`range(min, max + step, step)` (integer path), takes their Cartesian
product in `itertools.product` order, and, when the product exceeds
`max_combinations`, keeps the rows at the indices drawn by
`np.random.choice(n, size=max_combinations, replace=False)`.  The random
draw is the `pick` oracle below; `np.random.choice` guarantees `size`
distinct indices below `n`.

`optimize_strategy` backtests every combination, skips failures
(exceptions and unsuccessful results — the `runBacktest` oracle returns
`none` for those), sorts the successes descending by the chosen metric
with Python's stable `list.sort(key=..., reverse=True)` (ties keep their
original order), and returns the first `top_n`; `metricOf` plays
`x['metrics'].get(optimization_metric, -inf)`.
-/

/-- A declared `{min, max, step}` tunable-parameter range. -/
structure PRange where
  lo : ℤ
  hi : ℤ
  step : ℤ
deriving DecidableEq, Repr

/-- Python `range(lo, stop, step)` for a positive step (the optimizer
only builds ascending integer ranges; `range` raises for a zero step and
counts downward for a negative one, both unused here, embedded as
`[]`). -/
def pyRange (lo stop step : ℤ) : List ℤ :=
  if step ≤ 0 then []
  else (List.range (((stop - lo).toNat + step.toNat - 1) / step.toNat)).map
    fun k => lo + (k : ℤ) * step

/-- `itertools.product`: the first list varies slowest, exactly like the
source's `itertools.product(*param_values)`. -/
def cartProd : List (List ℤ) → List (List ℤ)
  | [] => [[]]
  | vs :: rest => (vs.map fun v => (cartProd rest).map fun combo => v :: combo).flatten

/-- `_generate_parameter_combinations`: full product, random
down-sampling past `max_combinations`, then `dict(zip(names, combo))`
per row. -/
def generateParameterCombinations (pick : ℕ → ℕ → List ℕ)
    (params : List (String × PRange)) (maxCombos : ℕ) :
    List (List (String × ℤ)) :=
  ((if maxCombos <
      (cartProd (params.map fun p => pyRange p.2.lo (p.2.hi + p.2.step) p.2.step)).length
    then
      (pick (cartProd (params.map fun p =>
          pyRange p.2.lo (p.2.hi + p.2.step) p.2.step)).length maxCombos).map
        fun idx =>
          (cartProd (params.map fun p =>
            pyRange p.2.lo (p.2.hi + p.2.step) p.2.step)).getD idx []
    else cartProd (params.map fun p => pyRange p.2.lo (p.2.hi + p.2.step) p.2.step)).map
      fun combo => (params.map Prod.fst).zip combo)

/-- One insertion step of the stable descending sort: an earlier element
`x` is placed before the first later element that does not rank strictly
above it, so equal keys keep their original order. -/
def insertDescBy {R : Type} (key : R → ℚ) (x : R) : List R → List R
  | [] => [x]
  | y :: ys => if key y ≤ key x then x :: y :: ys else y :: insertDescBy key x ys

/-- `results.sort(key=..., reverse=True)`: Python's sort is stable;
descending by key, ties in original order. -/
def sortDescBy {R : Type} (key : R → ℚ) : List R → List R
  | [] => []
  | x :: xs => insertDescBy key x (sortDescBy key xs)

/-- `optimize_strategy` with a nonempty optimizable-parameter map:
returns `(top_strategies, total_tested)`. -/
def optimizeStrategy {R : Type} (runBacktest : List (String × ℤ) → Option R)
    (metricOf : R → ℚ) (pick : ℕ → ℕ → List ℕ)
    (params : List (String × PRange)) (maxIterations topN : ℕ) :
    List R × ℕ :=
  ((sortDescBy metricOf
      ((generateParameterCombinations pick params maxIterations).filterMap
        runBacktest)).take topN,
    ((generateParameterCombinations pick params maxIterations).filterMap
      runBacktest).length)

theorem insertDescBy_perm {R : Type} (key : R → ℚ) (x : R) :
    ∀ l : List R, List.Perm (insertDescBy key x l) (x :: l) := by
  intro l
  induction l with
  | nil => simp [insertDescBy]
  | cons y ys ih =>
    rw [insertDescBy]
    by_cases h : key y ≤ key x
    · rw [if_pos h]
    · rw [if_neg h]
      exact (List.Perm.cons y ih).trans (List.Perm.swap x y ys)

theorem sortDescBy_perm {R : Type} (key : R → ℚ) :
    ∀ l : List R, List.Perm (sortDescBy key l) l := by
  intro l
  induction l with
  | nil => simp [sortDescBy]
  | cons x xs ih =>
    rw [sortDescBy]
    exact ((insertDescBy_perm key x (sortDescBy key xs)).trans
      (List.Perm.cons x ih))

theorem insertDescBy_pairwise {R : Type} (key : R → ℚ) (x : R) :
    ∀ l : List R, l.Pairwise (fun a b => key b ≤ key a) →
      (insertDescBy key x l).Pairwise (fun a b => key b ≤ key a) := by
  intro l
  induction l with
  | nil => intro _; simp [insertDescBy]
  | cons y ys ih =>
    intro hp
    rw [List.pairwise_cons] at hp
    obtain ⟨hy, hys⟩ := hp
    rw [insertDescBy]
    by_cases h : key y ≤ key x
    · rw [if_pos h]
      rw [List.pairwise_cons]
      refine ⟨?_, List.pairwise_cons.mpr ⟨hy, hys⟩⟩
      intro z hz
      rcases List.mem_cons.mp hz with rfl | hz2
      · exact h
      · exact le_trans (hy z hz2) h
    · rw [if_neg h]
      rw [List.pairwise_cons]
      refine ⟨?_, ih hys⟩
      intro z hz
      have hz2 := (insertDescBy_perm key x ys).mem_iff.mp hz
      rcases List.mem_cons.mp hz2 with rfl | hz3
      · exact le_of_lt (lt_of_not_le h)
      · exact hy z hz3

theorem sortDescBy_pairwise {R : Type} (key : R → ℚ) :
    ∀ l : List R, (sortDescBy key l).Pairwise (fun a b => key b ≤ key a) := by
  intro l
  induction l with
  | nil => simp [sortDescBy]
  | cons x xs ih =>
    rw [sortDescBy]
    exact insertDescBy_pairwise key x (sortDescBy key xs) ih

theorem insertDescBy_filter_eq {R : Type} (key : R → ℚ) (x : R) (v : ℚ) :
    ∀ l : List R,
      (insertDescBy key x l).filter (fun r => decide (key r = v))
        = (x :: l).filter (fun r => decide (key r = v)) := by
  intro l
  induction l with
  | nil => rfl
  | cons y ys ih =>
    rw [insertDescBy]
    by_cases h : key y ≤ key x
    · rw [if_pos h]
    · rw [if_neg h]
      by_cases hx : key x = v
      · have hy : ¬ key y = v := by
          intro hyv
          exact h (le_of_eq (hyv.trans hx.symm))
        simp [List.filter_cons, hx, hy, ih]
      · simp [List.filter_cons, hx, ih]

theorem sortDescBy_filter_eq {R : Type} (key : R → ℚ) (v : ℚ) :
    ∀ l : List R,
      (sortDescBy key l).filter (fun r => decide (key r = v))
        = l.filter (fun r => decide (key r = v)) := by
  intro l
  induction l with
  | nil => rfl
  | cons x xs ih =>
    rw [sortDescBy, insertDescBy_filter_eq]
    simp only [List.filter_cons, ih]

/-- C8: with a nonempty optimizable-parameter map and any sampling draw
honoring the `np.random.choice` contract, the number of tested (and of
successful) combinations is at most
`min(|full Cartesian product|, max_iterations)`; `top_strategies` has
length at most `top_n` and is the `top_n`-prefix of the successful
results stably sorted descending by the chosen metric: the sorted list
is a permutation of the successes, is pairwise descending in the metric,
and every equal-metric class keeps its original order. -/
theorem optimizer_spec {R : Type} (runBacktest : List (String × ℤ) → Option R)
    (metricOf : R → ℚ) (pick : ℕ → ℕ → List ℕ)
    (params : List (String × PRange)) (maxIterations topN : ℕ)
    (hparams : params ≠ [])
    (hpick : ∀ n k, k ≤ n → (pick n k).length = k) :
    (optimizeStrategy runBacktest metricOf pick params maxIterations topN).2
      ≤ min (cartProd (params.map fun p =>
          pyRange p.2.lo (p.2.hi + p.2.step) p.2.step)).length maxIterations
    ∧ (optimizeStrategy runBacktest metricOf pick params maxIterations topN).1.length
      ≤ topN
    ∧ (optimizeStrategy runBacktest metricOf pick params maxIterations topN).1
      = (sortDescBy metricOf
          ((generateParameterCombinations pick params maxIterations).filterMap
            runBacktest)).take topN
    ∧ List.Perm
        (sortDescBy metricOf
          ((generateParameterCombinations pick params maxIterations).filterMap
            runBacktest))
        ((generateParameterCombinations pick params maxIterations).filterMap
          runBacktest)
    ∧ (sortDescBy metricOf
        ((generateParameterCombinations pick params maxIterations).filterMap
          runBacktest)).Pairwise (fun a b => metricOf b ≤ metricOf a)
    ∧ ∀ v : ℚ,
        (sortDescBy metricOf
          ((generateParameterCombinations pick params maxIterations).filterMap
            runBacktest)).filter (fun r => decide (metricOf r = v))
        = ((generateParameterCombinations pick params maxIterations).filterMap
            runBacktest).filter (fun r => decide (metricOf r = v)) := by
  have hcombos :
      (generateParameterCombinations pick params maxIterations).length
        ≤ min (cartProd (params.map fun p =>
            pyRange p.2.lo (p.2.hi + p.2.step) p.2.step)).length maxIterations := by
    rw [generateParameterCombinations, List.length_map]
    by_cases h : maxIterations <
        (cartProd (params.map fun p =>
          pyRange p.2.lo (p.2.hi + p.2.step) p.2.step)).length
    · rw [if_pos h, List.length_map,
        hpick _ _ (Nat.le_of_lt h)]
      omega
    · rw [if_neg h]
      omega
  refine ⟨?_, ?_, rfl, sortDescBy_perm metricOf _, sortDescBy_pairwise metricOf _,
    fun v => sortDescBy_filter_eq metricOf v _⟩
  · calc (optimizeStrategy runBacktest metricOf pick params maxIterations topN).2
        ≤ (generateParameterCombinations pick params maxIterations).length :=
          List.length_filterMap_le _ _
      _ ≤ _ := hcombos
  · exact (List.length_take_le _ _)

/-- C8 witness: one parameter ranging over three values, capped at two
sampled combinations, every backtest succeeding. -/
theorem optimizer_spec_witness :
    (([("p", PRange.mk 1 3 1)] : List (String × PRange)) ≠ []
      ∧ ∀ n k : ℕ, k ≤ n → (List.range k).length = k)
    ∧ ((optimizeStrategy (R := List (String × ℤ)) some (fun _ => 0)
          (fun _ k => List.range k) [("p", PRange.mk 1 3 1)] 2 1).2
        ≤ min (cartProd ([("p", PRange.mk 1 3 1)].map fun p =>
            pyRange p.2.lo (p.2.hi + p.2.step) p.2.step)).length 2
      ∧ (optimizeStrategy (R := List (String × ℤ)) some (fun _ => 0)
          (fun _ k => List.range k) [("p", PRange.mk 1 3 1)] 2 1).1.length ≤ 1) :=
  ⟨⟨by decide, fun n k _ => List.length_range k⟩,
    (optimizer_spec (R := List (String × ℤ)) some (fun _ => 0)
      (fun _ k => List.range k) [("p", PRange.mk 1 3 1)] 2 1
      (by decide) (fun n k _ => List.length_range k)).1,
    ((optimizer_spec (R := List (String × ℤ)) some (fun _ => 0)
      (fun _ k => List.range k) [("p", PRange.mk 1 3 1)] 2 1
      (by decide) (fun n k _ => List.length_range k)).2).1⟩

end StrategyLab
